import Mathlib

/-!
Verification of the Personalized-Guide repository against its specification.

The development shallowly embeds the two Python modules the claims are about:

* `db.py` — the Favorites Store backed by a SQLite table
  `favorites (id INTEGER PRIMARY KEY AUTOINCREMENT, city TEXT NOT NULL,
  place_name TEXT NOT NULL UNIQUE)`.  The table is modelled as a list of rows
  plus the AUTOINCREMENT counter; the `UNIQUE` constraint on `place_name`
  becomes the explicit membership test that decides whether the `INSERT`
  raises `sqlite3.IntegrityError`.

* `api.py` — the FastAPI handlers.  The Gemini environment credential is an
  `Option String` (`os.getenv`), the generation client is an opaque function
  parameter (its calls are external), and `raise HTTPException(status, detail)`
  becomes the `ApiResult.httpError` constructor.  The intent-router regex
  `re.search(r"save\s+(.+)", msg, re.IGNORECASE)` is embedded operationally,
  including the greedy/backtracking semantics of `\s+(.+)` and the fact that
  `.` does not match a newline.  The model is faithful for ASCII text: `\s` is
  modelled by the six ASCII whitespace characters and `re.IGNORECASE` by
  ASCII case folding, which agree with Python on every ASCII input.
-/

namespace TravelGuide

/-! ### Favorites Store (`db.py`) -/

/-- One row of the `favorites` table. -/
structure Favorite where
  id : Nat
  city : String
  place_name : String
deriving DecidableEq, Repr

/-- The persistent state: the rows of `favorites` in rowid (insertion) order,
together with the AUTOINCREMENT counter for the next `id`. -/
structure Store where
  rows : List Favorite
  nextId : Nat
deriving DecidableEq, Repr

/-- Embeds `init_db`: `CREATE TABLE IF NOT EXISTS favorites ...` on a fresh database
yields the empty table; AUTOINCREMENT starts issuing ids at 1. -/
def init_db : Store := { rows := [], nextId := 1 }

/-- The validation message of `add_favorite` when a field is empty. -/
def emptyFieldMsg : String := "⚠️ Error: City and Place Name cannot be empty."

/-- The success message of `add_favorite`. -/
def savedMsg (place_name : String) : String :=
  "✅ **" ++ place_name ++ "** has been saved to your favorites!"

/-- The message `add_favorite` returns from its `sqlite3.IntegrityError`
handler, i.e. when the `UNIQUE` constraint on `place_name` rejects the row. -/
def dupMsg (place_name : String) : String :=
  "🤔 Looks like **" ++ place_name ++ "** is already in your favorites list."

/-- Embeds `add_favorite(city, place_name)`: returns the status text and the
resulting store.  Python's `if not city or not place_name` is the emptiness
test; the `INSERT` succeeds exactly when no existing row has the same
`place_name` (SQLite `UNIQUE` with the default binary collation), otherwise
the `IntegrityError` branch leaves the table unchanged. -/
def add_favorite (st : Store) (city place_name : String) : String × Store :=
  if city = "" ∨ place_name = "" then
    (emptyFieldMsg, st)
  else if st.rows.any (fun r => r.place_name == place_name) then
    (dupMsg place_name, st)
  else
    (savedMsg place_name,
     { rows := st.rows ++ [{ id := st.nextId, city := city, place_name := place_name }],
       nextId := st.nextId + 1 })

/-- Embeds `get_favorites`: `SELECT city as City, place_name as 'Favorite Place' FROM
favorites` — the rows in storage order, each as the pair (City, Favorite Place). -/
def get_favorites (st : Store) : List (String × String) :=
  st.rows.map (fun r => (r.city, r.place_name))

/-- Embeds `clear_favorites`: `DELETE FROM favorites`.  With the `AUTOINCREMENT`
keyword SQLite keeps the issued-id high-water mark across deletes, so the
counter survives. -/
def clear_favorites (st : Store) : Store := { rows := [], nextId := st.nextId }

/-- Invariant of every store reachable through `init_db`/`add_favorite`/
`clear_favorites`: place names are pairwise distinct (the `UNIQUE`
constraint) and no stored field is empty (validation in `add_favorite`). -/
def StoreInv (st : Store) : Prop :=
  (st.rows.map (fun r => r.place_name)).Nodup ∧
  ∀ r ∈ st.rows, r.city ≠ "" ∧ r.place_name ≠ ""

/-- Number of stored rows carrying a given place name. -/
def placeCount (st : Store) (p : String) : Nat :=
  (st.rows.filter (fun r => r.place_name == p)).length

/-! ### The intent-router regex (`api.py` line 160 / `app.py` line 63)

`re.search(r"save\s+(.+)", message, re.IGNORECASE)` is embedded on
`List Char`, modelling Python's leftmost-match search and the greedy,
backtracking semantics of `\s+(.+)` where `.` excludes `'\n'`. -/

/-- Python's `\s` on ASCII text: space, tab, newline, vertical tab, form
feed, carriage return. -/
def isPySpace (c : Char) : Bool :=
  c = ' ' || c = '\t' || c = '\n' || c = '\x0b' || c = '\x0c' || c = '\r'

/-- Embeds `(.+)` matched greedily at the head of the input: succeeds iff the input
starts with a non-newline character, capturing up to the next newline. -/
def dotPlus : List Char → Option (List Char)
  | [] => none
  | c :: rest =>
    if c = '\n' then none
    else some (c :: rest.takeWhile (fun d => d != '\n'))

/-- Continuation of `\s+(.+)` once at least one whitespace character has been
consumed by `\s+`: each further whitespace character is preferably consumed
by `\s+` (greedy), falling back to starting `(.+)` on it when the longer
attempt fails. -/
def spaceThenDot : List Char → Option (List Char)
  | [] => none
  | c :: rest =>
    if isPySpace c then
      match spaceThenDot rest with
      | some g => some g
      | none => dotPlus (c :: rest)
    else dotPlus (c :: rest)

/-- Embeds `\s+(.+)` anchored at the head of the input: the first character must be
whitespace, then `spaceThenDot` finishes the match. -/
def matchSpaceGroup : List Char → Option (List Char)
  | [] => none
  | c :: rest => if isPySpace c then spaceThenDot rest else none

/-- Strip the literal `save` case-insensitively from the head of the input
(`re.IGNORECASE`, ASCII case folding). -/
def dropSaveCI : List Char → Option (List Char)
  | a :: b :: c :: d :: rest =>
    if a.toLower = 's' ∧ b.toLower = 'a' ∧ c.toLower = 'v' ∧ d.toLower = 'e' then
      some rest
    else none
  | _ => none

/-- Embeds `re.search(r"save\s+(.+)", l, re.IGNORECASE)`: try the pattern at each
position from the left, returning the first capture group on success. -/
def reSearchSave : List Char → Option (List Char)
  | [] => none
  | c :: rest =>
    match dropSaveCI (c :: rest) with
    | some t =>
      match matchSpaceGroup t with
      | some g => some g
      | none => reSearchSave rest
    | none => reSearchSave rest

/-- Python `str.strip()`: drop whitespace from both ends. -/
def pyStrip (l : List Char) : List Char :=
  ((l.dropWhile isPySpace).reverse.dropWhile isPySpace).reverse

/-- Embeds `save_match.group(1).strip()` packaged for `String`s: the candidate place
name when the save pattern matches the message, else `none`. -/
def findSaveCandidate (s : String) : Option String :=
  match reSearchSave s.data with
  | some g => some (String.mk (pyStrip g))
  | none => none

/-! ### The HTTP handlers (`api.py`) -/

/-- One element of `ChatRequest.messages`. -/
structure ChatMessage where
  role : String
  content : String
deriving DecidableEq, Repr

/-- The `/chat` request body: the transcript plus the optional city context. -/
structure ChatRequest where
  messages : List ChatMessage
  city_context : Option String
deriving DecidableEq, Repr

/-- Embeds `next((msg["content"] for msg in reversed(messages) if msg["role"] ==
"user"), "")`: the content of the most recent user-authored message, or the
empty string when there is none. -/
def lastUserMessage (msgs : List ChatMessage) : String :=
  match msgs.reverse.find? (fun m => m.role == "user") with
  | some m => m.content
  | none => ""

/-- Python truthiness of `request.city_context` (`Optional[str]`): `None` and
the empty string are falsy. -/
def truthy : Option String → Bool
  | none => false
  | some s => s != ""

/-- Embeds `get_gemini_api_key`: reads `GEMINI_API_KEY` from the environment
(`env = none` when unset) and raises `ValueError` when it is missing or
empty (`if not api_key`). -/
def get_gemini_api_key (env : Option String) : Except String String :=
  match env with
  | none => Except.error "Gemini API key is not configured"
  | some k => if k = "" then Except.error "Gemini API key is not configured" else Except.ok k

/-- Outcome of a FastAPI handler: a successful response body, or a raised
`HTTPException(status_code, detail)`. -/
inductive ApiResult (α : Type) where
  | ok : α → ApiResult α
  | httpError : Nat → String → ApiResult α
deriving DecidableEq, Repr

/-- The `detail` of the 503 raised by `/guide` and `/chat` when
`get_gemini_api_key` fails. -/
def configErrorDetail : String := "Service configuration error: Gemini API key not available"

/-- Embeds `/guide` (`get_travel_guide`): missing credential → the `ValueError`
handler raises 503; otherwise the generation client (`get_guide_response`,
modelled as the opaque `gen` applied to the key and the city) produces the
guide text. -/
def get_travel_guide (env : Option String) (gen : String → String → String)
    (city : String) : ApiResult String :=
  match get_gemini_api_key env with
  | Except.error _ => ApiResult.httpError 503 configErrorDetail
  | Except.ok key => ApiResult.ok (gen key city)

/-- The `else` branch of `/chat`: fetch the credential (503 on `ValueError`)
and call `get_chat_response(api_key, messages)`, modelled as the opaque
`llm`.  The store is untouched on this branch. -/
def chatLLM (env : Option String) (llm : String → List ChatMessage → String)
    (st : Store) (req : ChatRequest) : ApiResult String × Store :=
  match get_gemini_api_key env with
  | Except.error _ => (ApiResult.httpError 503 configErrorDetail, st)
  | Except.ok key => (ApiResult.ok (llm key req.messages), st)

/-- Embeds `/chat` (`chat_with_guide`): run the save-intent regex on the most recent
user message; `if save_match and request.city_context:` route to
`add_favorite(request.city_context, save_match.group(1).strip())`, whose
status text becomes the reply; otherwise fall through to the LLM branch. -/
def chat_with_guide (env : Option String) (llm : String → List ChatMessage → String)
    (st : Store) (req : ChatRequest) : ApiResult String × Store :=
  match findSaveCandidate (lastUserMessage req.messages), req.city_context with
  | some place, some ctx =>
    if ctx = "" then chatLLM env llm st req
    else
      let r := add_favorite st ctx place
      (ApiResult.ok r.1, r.2)
  | _, _ => chatLLM env llm st req

/-- The startup half of `lifespan`: validate the Gemini credential (the
`ValueError` propagates out of the `try` via `raise`, aborting startup),
then run `init_db`, whose failure (modelled by the `dbInit` argument) aborts
startup the same way. -/
def lifespan_startup (env : Option String) (dbInit : Except String Unit) :
    Except String Unit :=
  match get_gemini_api_key env with
  | Except.error e => Except.error e
  | Except.ok _ => dbInit

/-! ### Helper lemmas on messages and the store invariant -/

/-- The containment test the HTTP surface applies to status text:
`success = "✅" in result_message` (api.py, `/favorites`); for a
single-codepoint marker this is membership of that character. -/
def hasChar (s : String) (m : Char) : Bool := s.data.any (fun c => c = m)

theorem hasChar_append (a b : String) (m : Char) :
    hasChar (a ++ b) m = (hasChar a m || hasChar b m) := by
  simp [hasChar, String.data_append]

theorem emptyFieldMsg_ne_savedMsg (q : String) : emptyFieldMsg ≠ savedMsg q := by
  intro h
  have h2 : hasChar emptyFieldMsg '✅' = hasChar (savedMsg q) '✅' := by rw [h]
  unfold savedMsg at h2
  rw [hasChar_append, hasChar_append] at h2
  rw [show hasChar "✅ **" '✅' = true from by decide] at h2
  rw [show hasChar emptyFieldMsg '✅' = false from by decide] at h2
  simp at h2

theorem emptyFieldMsg_ne_dupMsg (q : String) : emptyFieldMsg ≠ dupMsg q := by
  intro h
  have h2 : hasChar emptyFieldMsg '🤔' = hasChar (dupMsg q) '🤔' := by rw [h]
  unfold dupMsg at h2
  rw [hasChar_append, hasChar_append] at h2
  rw [show hasChar "🤔 Looks like **" '🤔' = true from by decide] at h2
  rw [show hasChar emptyFieldMsg '🤔' = false from by decide] at h2
  simp at h2

theorem storeInv_init : StoreInv init_db := by
  constructor
  · simp [init_db]
  · intro r hr
    simp [init_db] at hr

/-- The validation branch of `add_favorite` as an equation. -/
theorem add_favorite_empty (st : Store) (c p : String) (h : c = "" ∨ p = "") :
    add_favorite st c p = (emptyFieldMsg, st) := by
  unfold add_favorite
  rw [if_pos h]

/-- The `IntegrityError` branch of `add_favorite` as an equation. -/
theorem add_favorite_dup (st : Store) (c p : String) (hc : c ≠ "") (hp : p ≠ "")
    (h2 : st.rows.any (fun r => r.place_name == p) = true) :
    add_favorite st c p = (dupMsg p, st) := by
  unfold add_favorite
  rw [if_neg (by simp [hc, hp]), if_pos h2]

/-- The successful-insert branch of `add_favorite` as an equation. -/
theorem add_favorite_insert (st : Store) (c p : String) (hc : c ≠ "") (hp : p ≠ "")
    (h2 : st.rows.any (fun r => r.place_name == p) = false) :
    add_favorite st c p =
      (savedMsg p,
       { rows := st.rows ++ [{ id := st.nextId, city := c, place_name := p }],
         nextId := st.nextId + 1 }) := by
  unfold add_favorite
  rw [if_neg (by simp [hc, hp]), if_neg (by simp [h2])]

theorem storeInv_add (st : Store) (c p : String) (h : StoreInv st) :
    StoreInv (add_favorite st c p).2 := by
  by_cases h1 : c = "" ∨ p = ""
  · rw [add_favorite_empty st c p h1]
    exact h
  · push_neg at h1
    cases h2 : st.rows.any (fun r => r.place_name == p) with
    | true =>
      rw [add_favorite_dup st c p h1.1 h1.2 h2]
      exact h
    | false =>
      have hnot : p ∉ st.rows.map (fun r => r.place_name) := by
        intro hmem
        rcases List.mem_map.1 hmem with ⟨r, hr, hrp⟩
        have : st.rows.any (fun r => r.place_name == p) = true :=
          List.any_eq_true.2 ⟨r, hr, by simp [hrp]⟩
        rw [h2] at this
        exact Bool.false_ne_true this
      rw [add_favorite_insert st c p h1.1 h1.2 h2]
      constructor
      · rw [List.map_append, List.nodup_append]
        refine ⟨h.1, by simp, ?_⟩
        intro x hx
        simp only [List.map_cons, List.map_nil, List.mem_cons, List.not_mem_nil,
          or_false]
        intro hxp
        exact hnot (hxp ▸ hx)
      · intro r hr
        rcases List.mem_append.1 hr with hr | hr
        · exact h.2 r hr
        · simp only [List.mem_cons, List.not_mem_nil, or_false] at hr
          subst hr
          exact ⟨h1.1, h1.2⟩

theorem placeCount_eq_count (st : Store) (p : String) :
    placeCount st p = (st.rows.map (fun r => r.place_name)).count p := by
  rw [placeCount, List.count, List.countP_map, List.countP_eq_length_filter]
  rfl

theorem placeCount_eq_one (st : Store) (p : String)
    (hnd : (st.rows.map (fun r => r.place_name)).Nodup)
    (hmem : p ∈ st.rows.map (fun r => r.place_name)) :
    placeCount st p = 1 := by
  rw [placeCount_eq_count]
  exact List.count_eq_one_of_mem hnd hmem

/-! ### Claims about the Favorites Store -/

/-- C5: whenever city or place name is empty, `add_favorite` returns the
fixed validation warning and leaves the store untouched, and that warning is
neither the success message nor the duplicate message for any place. -/
theorem add_empty_validation :
    (∀ (st : Store) (city place : String), city = "" ∨ place = "" →
      add_favorite st city place = (emptyFieldMsg, st)) ∧
    (∀ q : String, emptyFieldMsg ≠ savedMsg q ∧ emptyFieldMsg ≠ dupMsg q) := by
  constructor
  · intro st city place h
    unfold add_favorite
    rw [if_pos h]
  · intro q
    exact ⟨emptyFieldMsg_ne_savedMsg q, emptyFieldMsg_ne_dupMsg q⟩

/-- C5 witness: `add("Paris", "")` and `add("", "Louvre")` on the fresh store. -/
theorem add_empty_validation_witness :
    add_favorite init_db "Paris" "" = (emptyFieldMsg, init_db) ∧
    add_favorite init_db "" "Louvre" = (emptyFieldMsg, init_db) :=
  ⟨add_empty_validation.1 init_db "Paris" "" (Or.inr rfl),
   add_empty_validation.1 init_db "" "Louvre" (Or.inl rfl)⟩

/-- C7: `clear_favorites` is idempotent and `get_favorites` after it is empty,
for every prior store contents. -/
theorem clear_idempotent_empty :
    (∀ st : Store, clear_favorites (clear_favorites st) = clear_favorites st) ∧
    (∀ st : Store, get_favorites (clear_favorites st) = []) :=
  ⟨fun _ => rfl, fun _ => rfl⟩

/-- C8: `get_favorites` of an empty store is the empty sequence; a successful
insert appends its (city, place) pair at the end of the listing (insertion
order, correct pairing); concretely, inserting ("Paris","Louvre") then
("Tokyo","Shibuya") lists both rows in that order. -/
theorem list_insertion_order :
    (∀ st : Store, st.rows = [] → get_favorites st = []) ∧
    (∀ (st : Store) (c p : String), c ≠ "" → p ≠ "" →
      (∀ r ∈ st.rows, r.place_name ≠ p) →
      get_favorites (add_favorite st c p).2 = get_favorites st ++ [(c, p)]) ∧
    get_favorites (add_favorite (add_favorite init_db "Paris" "Louvre").2
        "Tokyo" "Shibuya").2 = [("Paris", "Louvre"), ("Tokyo", "Shibuya")] := by
  refine ⟨?_, ?_, by decide⟩
  · intro st h
    simp [get_favorites, h]
  · intro st c p hc hp hnot
    have hany : st.rows.any (fun r => r.place_name == p) = false := by
      cases hcase : st.rows.any (fun r => r.place_name == p)
      · rfl
      · rcases List.any_eq_true.1 hcase with ⟨r, hr, hrp⟩
        exact absurd (by simpa using hrp) (hnot r hr)
    simp [add_favorite, hc, hp, hany, get_favorites]

/-- C8 witness: the insertion-order equation at the first concrete insert. -/
theorem list_insertion_order_witness :
    get_favorites (add_favorite init_db "Paris" "Louvre").2 =
      get_favorites init_db ++ [("Paris", "Louvre")] :=
  list_insertion_order.2.1 init_db "Paris" "Louvre" (by decide) (by decide)
    (by intro r hr; simp [init_db] at hr)

/-- After a non-degenerate `add_favorite` the place name is stored, whether
the insert succeeded or was rejected as a duplicate. -/
theorem add_favorite_mem (st : Store) (c p : String) (hc : c ≠ "") (hp : p ≠ "") :
    p ∈ (add_favorite st c p).2.rows.map (fun r => r.place_name) := by
  cases h2 : st.rows.any (fun r => r.place_name == p) with
  | true =>
    rw [add_favorite_dup st c p hc hp h2]
    rcases List.any_eq_true.1 h2 with ⟨r, hr, hrp⟩
    exact List.mem_map.2 ⟨r, hr, by simpa using hrp⟩
  | false =>
    rw [add_favorite_insert st c p hc hp h2]
    simp

/-- C1: place-name uniqueness is global.  If some row already carries place
name `p` (under any city), then `add_favorite` with any (non-empty) city and
`p` returns the duplicate message, leaves the store unchanged, and exactly
one row with `p` exists afterwards; and adding the same place name twice in
a row yields a duplicate outcome on the second call with one stored row. -/
theorem add_duplicate_global :
    (∀ (st : Store) (c2 p : String), StoreInv st → c2 ≠ "" →
      (∃ r ∈ st.rows, r.place_name = p) →
      add_favorite st c2 p = (dupMsg p, st) ∧
      placeCount (add_favorite st c2 p).2 p = 1) ∧
    (∀ (st : Store) (c p : String), StoreInv st → c ≠ "" → p ≠ "" →
      (add_favorite (add_favorite st c p).2 c p).1 = dupMsg p ∧
      (add_favorite (add_favorite st c p).2 c p).2 = (add_favorite st c p).2 ∧
      placeCount (add_favorite (add_favorite st c p).2 c p).2 p = 1) := by
  have main : ∀ (st : Store) (c2 p : String), StoreInv st → c2 ≠ "" →
      (∃ r ∈ st.rows, r.place_name = p) →
      add_favorite st c2 p = (dupMsg p, st) ∧
      placeCount (add_favorite st c2 p).2 p = 1 := by
    intro st c2 p hinv hc2 hex
    obtain ⟨r, hr, hrp⟩ := hex
    have hp : p ≠ "" := by
      rw [← hrp]
      exact (hinv.2 r hr).2
    have hany : st.rows.any (fun r => r.place_name == p) = true :=
      List.any_eq_true.2 ⟨r, hr, by simp [hrp]⟩
    have heq := add_favorite_dup st c2 p hc2 hp hany
    refine ⟨heq, ?_⟩
    rw [heq]
    exact placeCount_eq_one st p hinv.1 (List.mem_map.2 ⟨r, hr, hrp⟩)
  refine ⟨main, ?_⟩
  intro st c p hinv hc hp
  have hinv1 := storeInv_add st c p hinv
  have hmem := add_favorite_mem st c p hc hp
  rcases List.mem_map.1 hmem with ⟨r, hr, hrp⟩
  obtain ⟨heq, hcount⟩ := main (add_favorite st c p).2 c p hinv1 hc ⟨r, hr, hrp⟩
  refine ⟨?_, ?_, hcount⟩
  · rw [heq]
  · rw [heq]

/-- C1 witness: saving "Louvre" twice into the fresh store. -/
theorem add_duplicate_global_witness :
    (add_favorite (add_favorite init_db "Paris" "Louvre").2 "Paris" "Louvre").1 =
      dupMsg "Louvre" ∧
    (add_favorite (add_favorite init_db "Paris" "Louvre").2 "Paris" "Louvre").2 =
      (add_favorite init_db "Paris" "Louvre").2 ∧
    placeCount
      (add_favorite (add_favorite init_db "Paris" "Louvre").2 "Paris" "Louvre").2
      "Louvre" = 1 :=
  add_duplicate_global.2 init_db "Paris" "Louvre" storeInv_init (by decide) (by decide)

/-! ### Router-branch helper equations -/

/-- When the save pattern matches and the city context is truthy,
`chat_with_guide` routes to `add_favorite` and returns its status text. -/
theorem chat_with_guide_save (env : Option String)
    (llm : String → List ChatMessage → String) (st : Store) (req : ChatRequest)
    (place ctx : String)
    (hm : findSaveCandidate (lastUserMessage req.messages) = some place)
    (hc : req.city_context = some ctx) (hne : ctx ≠ "") :
    chat_with_guide env llm st req =
      (ApiResult.ok (add_favorite st ctx place).1, (add_favorite st ctx place).2) := by
  unfold chat_with_guide
  rw [hm, hc]
  show (if ctx = "" then chatLLM env llm st req
        else
          (ApiResult.ok (add_favorite st ctx place).1,
           (add_favorite st ctx place).2)) =
      (ApiResult.ok (add_favorite st ctx place).1, (add_favorite st ctx place).2)
  rw [if_neg hne]

/-- When the save pattern does not match, or the city context is falsy,
`chat_with_guide` falls through to the LLM branch. -/
theorem chat_with_guide_llm (env : Option String)
    (llm : String → List ChatMessage → String) (st : Store) (req : ChatRequest)
    (h : findSaveCandidate (lastUserMessage req.messages) = none ∨
      truthy req.city_context = false) :
    chat_with_guide env llm st req = chatLLM env llm st req := by
  rcases h with hm | hc
  · cases hctx : req.city_context with
    | none =>
      unfold chat_with_guide
      rw [hm, hctx]
    | some s =>
      unfold chat_with_guide
      rw [hm, hctx]
  · cases hctx : req.city_context with
    | none =>
      cases hm : findSaveCandidate (lastUserMessage req.messages) with
      | none =>
        unfold chat_with_guide
        rw [hm, hctx]
      | some place =>
        unfold chat_with_guide
        rw [hm, hctx]
    | some s =>
      have hs : s = "" := by
        rw [hctx] at hc
        simpa [truthy] using hc
      subst hs
      cases hm : findSaveCandidate (lastUserMessage req.messages) with
      | none =>
        unfold chat_with_guide
        rw [hm, hctx]
      | some place =>
        unfold chat_with_guide
        rw [hm, hctx]
        simp

/-! ### Claims about the intent router and `/chat` -/

/-- C2: when the latest user message matches the save pattern and a city
context is present, `/chat` replies with the status text of
`add_favorite(city_context, candidate)` applied to the store, and the
response does not depend on the generation client (it is never called). -/
theorem chat_save_branch (env : Option String)
    (llm llm2 : String → List ChatMessage → String) (st : Store)
    (req : ChatRequest) (place ctx : String)
    (hm : findSaveCandidate (lastUserMessage req.messages) = some place)
    (hc : req.city_context = some ctx) (hne : ctx ≠ "") :
    chat_with_guide env llm st req =
      (ApiResult.ok (add_favorite st ctx place).1, (add_favorite st ctx place).2) ∧
    chat_with_guide env llm st req = chat_with_guide env llm2 st req := by
  have k1 := chat_with_guide_save env llm st req place ctx hm hc hne
  have k2 := chat_with_guide_save env llm2 st req place ctx hm hc hne
  exact ⟨k1, k1.trans k2.symm⟩

/-- The transcript of the spec's example: one user message "save The Louvre",
city context "Paris". -/
def reqLouvre : ChatRequest :=
  { messages := [{ role := "user", content := "save The Louvre" }],
    city_context := some "Paris" }

/-- C2 witness: on the example request the router calls
`add("Paris", "The Louvre")` and the reply is its status text, for any
generation client. -/
theorem chat_save_branch_witness :
    chat_with_guide none (fun _ _ => "reply-a") init_db reqLouvre =
      (ApiResult.ok (add_favorite init_db "Paris" "The Louvre").1,
       (add_favorite init_db "Paris" "The Louvre").2) ∧
    chat_with_guide none (fun _ _ => "reply-a") init_db reqLouvre =
      chat_with_guide none (fun _ _ => "reply-b") init_db reqLouvre :=
  chat_save_branch none (fun _ _ => "reply-a") (fun _ _ => "reply-b") init_db
    reqLouvre "The Louvre" "Paris" (by decide) rfl (by decide)

/-- C3: when the latest user message matches the save pattern but no city
context is present (absent or empty), `/chat` calls the generation client on
the transcript, the store is untouched, and the save intent is ignored. -/
theorem chat_save_no_context (env : Option String) (key : String)
    (llm : String → List ChatMessage → String) (st : Store) (req : ChatRequest)
    (place : String)
    (_hm : findSaveCandidate (lastUserMessage req.messages) = some place)
    (hc : truthy req.city_context = false)
    (hk : get_gemini_api_key env = Except.ok key) :
    chat_with_guide env llm st req = (ApiResult.ok (llm key req.messages), st) := by
  rw [chat_with_guide_llm env llm st req (Or.inr hc)]
  unfold chatLLM
  rw [hk]

/-- C3 witness: the same save message with `city_context = none` goes to the
generation client. -/
theorem chat_save_no_context_witness :
    chat_with_guide (some "api-key") (fun k msgs => k ++ toString msgs.length)
      init_db { messages := [{ role := "user", content := "save The Louvre" }],
                city_context := none } =
      (ApiResult.ok ("api-key" ++ toString (1 : Nat)), init_db) :=
  chat_save_no_context (some "api-key") "api-key"
    (fun k msgs => k ++ toString msgs.length) init_db
    { messages := [{ role := "user", content := "save The Louvre" }],
      city_context := none }
    "The Louvre" (by decide) rfl rfl

/-- C6: with the upstream credential missing (unset or empty), `/guide`
always answers with the 503 configuration error, and so does `/chat` on the
non-save branch; no raw exception escapes (the handler returns the
`HTTPException` value). -/
theorem missing_key_unavailable (env : Option String)
    (henv : env = none ∨ env = some "") :
    (∀ (gen : String → String → String) (city : String),
      get_travel_guide env gen city = ApiResult.httpError 503 configErrorDetail) ∧
    (∀ (llm : String → List ChatMessage → String) (st : Store) (req : ChatRequest),
      findSaveCandidate (lastUserMessage req.messages) = none ∨
        truthy req.city_context = false →
      chat_with_guide env llm st req =
        (ApiResult.httpError 503 configErrorDetail, st)) := by
  have hkey : get_gemini_api_key env =
      Except.error "Gemini API key is not configured" := by
    rcases henv with h | h <;> rw [h] <;> rfl
  constructor
  · intro gen city
    unfold get_travel_guide
    rw [hkey]
  · intro llm st req hns
    rw [chat_with_guide_llm env llm st req hns]
    unfold chatLLM
    rw [hkey]

/-- C6 witness: both handlers at a concrete non-save request with the
credential unset. -/
theorem missing_key_unavailable_witness :
    get_travel_guide none (fun _ city => city) "Paris" =
      ApiResult.httpError 503 configErrorDetail ∧
    chat_with_guide none (fun _ _ => "reply") init_db
      { messages := [{ role := "user", content := "tell me more" }],
        city_context := some "Paris" } =
      (ApiResult.httpError 503 configErrorDetail, init_db) :=
  ⟨(missing_key_unavailable none (Or.inl rfl)).1 (fun _ city => city) "Paris",
   (missing_key_unavailable none (Or.inl rfl)).2 (fun _ _ => "reply") init_db
     { messages := [{ role := "user", content := "tell me more" }],
       city_context := some "Paris" }
     (Or.inl (by decide))⟩

/-- C10 (implicit): the save branch of `/chat` never reads the upstream
credential — with the environment variable unset, a matching save message
with a truthy city context still returns the `add_favorite` outcome, and the
503 configuration path is unreachable on that branch. -/
theorem chat_save_no_key (llm : String → List ChatMessage → String)
    (st : Store) (req : ChatRequest) (place ctx : String)
    (hm : findSaveCandidate (lastUserMessage req.messages) = some place)
    (hc : req.city_context = some ctx) (hne : ctx ≠ "") :
    chat_with_guide none llm st req =
      (ApiResult.ok (add_favorite st ctx place).1, (add_favorite st ctx place).2) ∧
    ∀ (n : Nat) (d : String),
      (chat_with_guide none llm st req).1 ≠ ApiResult.httpError n d := by
  have key := chat_with_guide_save none llm st req place ctx hm hc hne
  refine ⟨key, ?_⟩
  intro n d h
  rw [key] at h
  simp at h

/-- The second concrete save request: the save keyword in the middle of the
message, matched case-insensitively. -/
def reqEiffel : ChatRequest :=
  { messages := [{ role := "assistant", content := "Bonjour!" },
                 { role := "user", content := "Please SAVE the Eiffel Tower" }],
    city_context := some "Paris" }

/-- C10 witness: with no credential configured the save branch still
succeeds on a concrete request. -/
theorem chat_save_no_key_witness :
    chat_with_guide none (fun _ _ => "reply") init_db reqEiffel =
      (ApiResult.ok (add_favorite init_db "Paris" "the Eiffel Tower").1,
       (add_favorite init_db "Paris" "the Eiffel Tower").2) ∧
    ∀ (n : Nat) (d : String),
      (chat_with_guide none (fun _ _ => "reply") init_db reqEiffel).1 ≠
        ApiResult.httpError n d :=
  chat_save_no_key (fun _ _ => "reply") init_db reqEiffel "the Eiffel Tower"
    "Paris" (by decide) rfl (by decide)

/-! ### The save-pattern claim (C4)

`specSaveMatches` renders the claim's own words — "save" followed by
one-or-more characters, case-insensitive, anywhere in the message — while
`specSaveWsMatches` renders the amended reading forced by the code: "save",
then one-or-more whitespace characters, then at least one further character
reachable by `.` (non-newline). -/

/-- The claim's reading of save-intent detection: some occurrence of `save`
(case-insensitive) followed by at least one character. -/
def specSaveMatches : List Char → Bool
  | [] => false
  | c :: rest =>
    (match dropSaveCI (c :: rest) with
     | some (_ :: _) => true
     | _ => false) || specSaveMatches rest

/-- The amended reading: some occurrence of `save` (case-insensitive)
followed by a whitespace character with some non-newline character after
it. -/
def specSaveWsMatches : List Char → Bool
  | [] => false
  | c :: rest =>
    (match dropSaveCI (c :: rest) with
     | some (x :: t) => isPySpace x && t.any (fun d => d != '\n')
     | _ => false) || specSaveWsMatches rest

theorem dotPlus_isSome (c : Char) (rest : List Char) :
    (dotPlus (c :: rest)).isSome = (c != '\n') := by
  rw [dotPlus]
  by_cases h : c = '\n' <;> simp [h]

theorem not_isPySpace_bne_newline {c : Char} (h : isPySpace c = false) :
    (c != '\n') = true := by
  rcases eq_or_ne c '\n' with rfl | hne
  · simp [isPySpace] at h
  · simpa using hne

theorem spaceThenDot_isSome (t : List Char) :
    (spaceThenDot t).isSome = t.any (fun d => d != '\n') := by
  induction t with
  | nil => rfl
  | cons c rest ih =>
    rw [spaceThenDot, List.any_cons]
    by_cases hc : isPySpace c
    · rw [if_pos hc]
      cases hs : spaceThenDot rest with
      | some g =>
        rw [hs] at ih
        simp only [Option.isSome_some] at ih
        simp [← ih]
      | none =>
        rw [hs] at ih
        simp only [Option.isSome_none] at ih
        rw [dotPlus_isSome, ← ih]
        simp
    · rw [if_neg hc, dotPlus_isSome,
        not_isPySpace_bne_newline (Bool.eq_false_iff.2 hc)]
      simp

theorem matchSpaceGroup_isSome (t : List Char) :
    (matchSpaceGroup t).isSome =
      (match t with
       | [] => false
       | x :: t' => isPySpace x && t'.any (fun d => d != '\n')) := by
  cases t with
  | nil => rfl
  | cons x t' =>
    rw [matchSpaceGroup]
    by_cases h : isPySpace x
    · simp [h, spaceThenDot_isSome]
    · simp [h]

/-- Equation for `reSearchSave` when the pattern matches at the head. -/
theorem reSearchSave_cons_found (c : Char) (rest t g : List Char)
    (hd : dropSaveCI (c :: rest) = some t) (hm : matchSpaceGroup t = some g) :
    reSearchSave (c :: rest) = some g := by
  have step : reSearchSave (c :: rest) =
      (match matchSpaceGroup t with
       | some g => some g
       | none => reSearchSave rest) := by
    rw [reSearchSave, hd]
  rw [step, hm]

/-- Equation for `reSearchSave` when the pattern fails at the head position
(either no `save` here, or `\s+(.+)` fails after it): move one character
right. -/
theorem reSearchSave_cons_skip (c : Char) (rest : List Char)
    (h : dropSaveCI (c :: rest) = none ∨
      ∃ t, dropSaveCI (c :: rest) = some t ∧ matchSpaceGroup t = none) :
    reSearchSave (c :: rest) = reSearchSave rest := by
  rcases h with hd | ⟨t, hd, hm⟩
  · rw [reSearchSave, hd]
  · have step : reSearchSave (c :: rest) =
        (match matchSpaceGroup t with
         | some g => some g
         | none => reSearchSave rest) := by
      rw [reSearchSave, hd]
    rw [step, hm]

theorem reSearchSave_isSome (l : List Char) :
    (reSearchSave l).isSome = specSaveWsMatches l := by
  induction l with
  | nil => rfl
  | cons c rest ih =>
    rw [specSaveWsMatches]
    cases hd : dropSaveCI (c :: rest) with
    | none =>
      rw [reSearchSave_cons_skip c rest (Or.inl hd)]
      simpa using ih
    | some t =>
      have ht := matchSpaceGroup_isSome t
      cases t with
      | nil =>
        rw [reSearchSave_cons_skip c rest (Or.inr ⟨[], hd, rfl⟩)]
        simpa using ih
      | cons x t' =>
        simp only at ht
        cases hm : matchSpaceGroup (x :: t') with
        | none =>
          rw [reSearchSave_cons_skip c rest (Or.inr ⟨x :: t', hd, hm⟩)]
          rw [hm] at ht
          simp only [Option.isSome_none] at ht
          simp [← ht, ih]
        | some g =>
          rw [reSearchSave_cons_found c rest (x :: t') g hd hm]
          rw [hm] at ht
          simp only [Option.isSome_some] at ht
          simp [← ht]

theorem all_takeWhile_self {α : Type} (p : α → Bool) (l : List α) :
    (l.takeWhile p).all p = true := by
  induction l with
  | nil => rfl
  | cons c rest ih =>
    rw [List.takeWhile_cons]
    by_cases h : p c
    · simp [h, ih]
    · simp [h]

theorem dotPlus_decomp (u g : List Char) (h : dotPlus u = some g) :
    g ≠ [] ∧ g.all (fun d => d != '\n') ∧ ∃ post, u = g ++ post := by
  cases u with
  | nil => simp [dotPlus] at h
  | cons c rest =>
    rw [dotPlus] at h
    by_cases hc : c = '\n'
    · simp [hc] at h
    · rw [if_neg hc] at h
      have hg : g = c :: rest.takeWhile (fun d => d != '\n') := by
        injection h with h
        exact h.symm
      subst hg
      refine ⟨by simp, ?_, rest.dropWhile (fun d => d != '\n'), ?_⟩
      · simp only [List.all_cons, Bool.and_eq_true]
        exact ⟨by simpa using hc, all_takeWhile_self _ rest⟩
      · simp [List.takeWhile_append_dropWhile]

theorem spaceThenDot_decomp (t g : List Char) (h : spaceThenDot t = some g) :
    ∃ w post, t = w ++ g ++ post ∧ w.all isPySpace ∧ g ≠ [] ∧
      g.all (fun d => d != '\n') := by
  induction t with
  | nil => simp [spaceThenDot] at h
  | cons c rest ih =>
    rw [spaceThenDot] at h
    by_cases hc : isPySpace c
    · rw [if_pos hc] at h
      cases hs : spaceThenDot rest with
      | some g' =>
        rw [hs] at h
        have hg : g' = g := by injection h
        subst hg
        obtain ⟨w, post, heq, hw, hne, hall⟩ := ih hs
        exact ⟨c :: w, post, by simp [heq], by simp [hc, hw], hne, hall⟩
      | none =>
        rw [hs] at h
        obtain ⟨hne, hall, post, heq⟩ := dotPlus_decomp _ _ h
        exact ⟨[], post, by simpa using heq, by simp, hne, hall⟩
    · rw [if_neg hc] at h
      obtain ⟨hne, hall, post, heq⟩ := dotPlus_decomp _ _ h
      exact ⟨[], post, by simpa using heq, by simp, hne, hall⟩

theorem matchSpaceGroup_decomp (t g : List Char) (h : matchSpaceGroup t = some g) :
    ∃ w post, t = w ++ g ++ post ∧ w ≠ [] ∧ w.all isPySpace ∧ g ≠ [] ∧
      g.all (fun d => d != '\n') := by
  cases t with
  | nil => simp [matchSpaceGroup] at h
  | cons x t' =>
    rw [matchSpaceGroup] at h
    by_cases hx : isPySpace x
    · rw [if_pos hx] at h
      obtain ⟨w, post, heq, hw, hne, hall⟩ := spaceThenDot_decomp t' g h
      exact ⟨x :: w, post, by simp [heq], by simp, by simp [hx, hw], hne, hall⟩
    · rw [if_neg hx] at h
      exact absurd h (by simp)

theorem dropSaveCI_decomp (l t : List Char) (h : dropSaveCI l = some t) :
    ∃ s4, l = s4 ++ t ∧ dropSaveCI s4 = some [] := by
  rcases l with _ | ⟨a, _ | ⟨b, _ | ⟨c, _ | ⟨d, rest⟩⟩⟩⟩
  · simp [dropSaveCI] at h
  · simp [dropSaveCI] at h
  · simp [dropSaveCI] at h
  · simp [dropSaveCI] at h
  · rw [dropSaveCI] at h
    by_cases hcond : a.toLower = 's' ∧ b.toLower = 'a' ∧ c.toLower = 'v' ∧
        d.toLower = 'e'
    · rw [if_pos hcond] at h
      have ht : rest = t := by injection h
      subst ht
      refine ⟨[a, b, c, d], rfl, ?_⟩
      rw [dropSaveCI, if_pos hcond]
    · rw [if_neg hcond] at h
      exact absurd h (by simp)

theorem reSearchSave_decomp (l g : List Char) (h : reSearchSave l = some g) :
    g ≠ [] ∧ g.all (fun d => d != '\n') ∧
    ∃ pre s4 w post, l = pre ++ s4 ++ w ++ g ++ post ∧
      dropSaveCI s4 = some [] ∧ w ≠ [] ∧ w.all isPySpace := by
  induction l with
  | nil => simp [reSearchSave] at h
  | cons c rest ih =>
    cases hd : dropSaveCI (c :: rest) with
    | none =>
      rw [reSearchSave_cons_skip c rest (Or.inl hd)] at h
      obtain ⟨h1, h2, pre, s4, w, post, heq, hs, hw, hws⟩ := ih h
      exact ⟨h1, h2, c :: pre, s4, w, post, by simp [heq], hs, hw, hws⟩
    | some t =>
      cases hm : matchSpaceGroup t with
      | none =>
        rw [reSearchSave_cons_skip c rest (Or.inr ⟨t, hd, hm⟩)] at h
        obtain ⟨h1, h2, pre, s4, w, post, heq, hs, hw, hws⟩ := ih h
        exact ⟨h1, h2, c :: pre, s4, w, post, by simp [heq], hs, hw, hws⟩
      | some g' =>
        rw [reSearchSave_cons_found c rest t g' hd hm] at h
        have hg : g' = g := by injection h
        subst hg
        obtain ⟨w, post, heq, hwne, hws, hne, hall⟩ := matchSpaceGroup_decomp t g' hm
        obtain ⟨s4, heq4, hs4⟩ := dropSaveCI_decomp (c :: rest) t hd
        refine ⟨hne, hall, [], s4, w, post, ?_, hs4, hwne, hws⟩
        rw [List.nil_append, heq4, heq]
        simp

/-- C4 counterexample: the claim's reading of the pattern ("save" followed by
one-or-more characters, match exists exactly when such a substring occurs,
candidate is everything after "save" trimmed) disagrees with the code.
`"saveX"` contains "save" followed by a character yet the regex does not
match (the `\s+` requires whitespace); and on `"save a\nb"` the captured
candidate is `"a"` (`.` stops at the newline) while everything after the
whitespace, trimmed, is `"a\nb"`. -/
theorem save_regex_counterexample :
    specSaveMatches "saveX".data = true ∧
    reSearchSave "saveX".data = none ∧
    reSearchSave "save a\nb".data = some "a".data ∧
    pyStrip " a\nb".data = "a\nb".data ∧
    "a\nb".data ≠ "a".data :=
  ⟨by decide, by decide, by decide, by decide, by decide⟩

/-- C4 amended: the router matches "save" followed by one-or-more whitespace
characters and then at least one further non-newline character,
case-insensitively, anywhere in the message (a match exists exactly when
such a pattern occurs), and every captured candidate is a nonempty
newline-free segment of the message that immediately follows the matched
"save" and a nonempty whitespace run (the candidate is that capture with
surrounding whitespace trimmed). -/
theorem save_regex_amended :
    (∀ l : List Char, (reSearchSave l).isSome = specSaveWsMatches l) ∧
    (∀ l g : List Char, reSearchSave l = some g →
      g ≠ [] ∧ g.all (fun d => d != '\n') ∧
      ∃ pre s4 w post, l = pre ++ s4 ++ w ++ g ++ post ∧
        dropSaveCI s4 = some [] ∧ w ≠ [] ∧ w.all isPySpace) ∧
    (∀ s : String, findSaveCandidate s =
      (reSearchSave s.data).map (fun g => String.mk (pyStrip g))) := by
  refine ⟨reSearchSave_isSome, reSearchSave_decomp, ?_⟩
  intro s
  rw [findSaveCandidate]
  cases reSearchSave s.data <;> rfl

/-- C4 amended witness: the characterization applied at the concrete message
`"save x"`, whose capture is `"x"`. -/
theorem save_regex_amended_witness :
    "x".data ≠ [] ∧ "x".data.all (fun d => d != '\n') ∧
    ∃ pre s4 w post, "save x".data = pre ++ s4 ++ w ++ "x".data ++ post ∧
      dropSaveCI s4 = some [] ∧ w ≠ [] ∧ w.all isPySpace :=
  save_regex_amended.2.1 "save x".data "x".data (by decide)

/-! ### Claims about startup (`lifespan`) -/

/-- C9 counterexample: with storage initialization succeeding, a missing
upstream credential alone makes startup abort (`lifespan` re-raises the
`ValueError` from `get_gemini_api_key`), contradicting the claim that no
configuration fault is escalated to a fatal exit. -/
theorem startup_config_abort :
    lifespan_startup none (Except.ok ()) =
      Except.error "Gemini API key is not configured" ∧
    lifespan_startup none (Except.ok ()) ≠ Except.ok () := by
  refine ⟨rfl, ?_⟩
  intro h
  simp [lifespan_startup, get_gemini_api_key] at h

/-- C9 amended: startup succeeds exactly when the upstream credential is
present and non-empty and persistent-storage initialization succeeds; both a
configuration fault and a storage-initialization failure abort startup, and
nothing else enters the startup path. -/
theorem startup_abort_iff (env : Option String) (dbInit : Except String Unit) :
    lifespan_startup env dbInit = Except.ok () ↔
      (∃ k, env = some k ∧ k ≠ "") ∧ dbInit = Except.ok () := by
  cases env with
  | none => simp [lifespan_startup, get_gemini_api_key]
  | some k =>
    by_cases hk : k = "" <;>
      simp [lifespan_startup, get_gemini_api_key, hk]

end TravelGuide
